import Mathlib

/-!
Verification development for the `scrapy-autoextract` repository.

The file shallowly embeds the parts of the code that the checked claims
are about:

* `scrapy_autoextract/slot_semaphore.py` — `SlotsSemaphore`, `_SlotMeta`,
  `_SlotSemaphore.__aenter__/__aexit__`, modelled as a small-step
  transition system over the interleavings that the asyncio event loop
  can produce (each maximal run of statements between `await` suspension
  points is one atomic step).
* `scrapy_autoextract/task_manager.py` — `TaskManager` (`run`,
  `cancel_all`, `_install_signal_handler`), modelled with an explicit
  list of awaitables handed to `asyncio.create_task` (the event loop's
  scheduled work) and an explicit list of tasks that received a
  `.cancel()` request.
* `scrapy_autoextract/providers.py` and `scrapy_autoextract/errors.py` —
  `AutoExtractProvider.do_request_cached`, `list_required_requests`,
  `get_filled_request`, `__call__`, `get_concurrent_requests_per_domain`
  and `QueryError`/`summarize_exception`, with Python dictionaries
  modelled as association lists and raised exceptions as `Except`.
-/

set_option maxHeartbeats 1000000

namespace ScrapyAutoextract

/-! ## Model of `scrapy_autoextract/slot_semaphore.py`

A task that goes through `SlotsSemaphore.run`/`use_slot` passes through
four phases.  `notStarted → waiting` is the synchronous prefix of
`_SlotSemaphore.__aenter__` (slot creation plus the increment of
`registered_tasks`, atomic on the event loop), `waiting → inside` is the
completion of `semaphore.acquire()` (only possible while the semaphore
counter is positive), and `inside → done` is `_SlotSemaphore.__aexit__`
(release, decrement, conditional deletion of the slot), which `async
with` runs on success and on failure of the protected body alike. -/

inductive TaskPhase where
  | notStarted
  | waiting
  | inside
  | done
  deriving DecidableEq, Repr

/-- Model of `_SlotMeta`: the state of one slot, a bounded semaphore value
(`semaphore._value` of `BoundedSemaphore(concurrency_per_slot)`) and the
`registered_tasks` counter. -/
structure SlotMeta where
  semValue : Nat
  registered_tasks : Nat
  deriving DecidableEq, Repr

/-- The shared state of one `SlotsSemaphore` together with the phases of
`n` client tasks: the `slots` dictionary (`none` = key absent) and each
task's position in the `use_slot` protocol. -/
structure SemState (K : Type) (n : Nat) where
  slots : K → Option SlotMeta
  phase : Fin n → TaskPhase

/-- Initial state: `self.slots = {}` (from `SlotsSemaphore.__init__`) and
no task has entered `use_slot` yet. -/
def SemState.init (K : Type) (n : Nat) : SemState K n :=
  { slots := fun _ => none, phase := fun _ => .notStarted }

/-- The synchronous prefix of `_SlotSemaphore.__aenter__`: if the slot is
absent, insert `_SlotMeta(BoundedSemaphore(C), registered_tasks=0)`; then
`slot_info.registered_tasks += 1`. -/
def aenterSlots {K : Type} [DecidableEq K] (C : Nat) (k : K)
    (slots : K → Option SlotMeta) : K → Option SlotMeta :=
  let meta := (slots k).getD { semValue := C, registered_tasks := 0 }
  Function.update slots k
    (some { meta with registered_tasks := meta.registered_tasks + 1 })

/-- Completion of `await slot_info.semaphore.acquire()`: the semaphore
value is decremented (the guard `0 < m.semValue` lives on the step). -/
def acquireSlots {K : Type} [DecidableEq K] (k : K) (m : SlotMeta)
    (slots : K → Option SlotMeta) : K → Option SlotMeta :=
  Function.update slots k (some { m with semValue := m.semValue - 1 })

/-- Model of `_SlotSemaphore.__aexit__`: `semaphore.release()`, then
`registered_tasks -= 1`, then `del self.parent.slots[self.slot]` when the
counter reached zero. -/
def aexitSlots {K : Type} [DecidableEq K] (k : K) (m : SlotMeta)
    (slots : K → Option SlotMeta) : K → Option SlotMeta :=
  let m2 : SlotMeta :=
    { semValue := m.semValue + 1, registered_tasks := m.registered_tasks - 1 }
  if m2.registered_tasks = 0 then
    Function.update slots k none
  else
    Function.update slots k (some m2)

/-- One atomic step of the event loop, for a system of `n` tasks where
task `t` uses slot key `taskKey t` and the semaphore was built as
`SlotsSemaphore(C)`.  The split of `__aenter__` into `enter` (registration)
and `acquire` (semaphore acquisition) over-approximates asyncio's
behaviour (asyncio performs both in one step when a permit is free),
so every asyncio interleaving is a trace of this relation. -/
inductive SemStep {K : Type} [DecidableEq K] {n : Nat} (C : Nat)
    (taskKey : Fin n → K) : SemState K n → SemState K n → Prop where
  | enter (s : SemState K n) (t : Fin n)
      (hph : s.phase t = .notStarted) :
      SemStep C taskKey s
        { slots := aenterSlots C (taskKey t) s.slots,
          phase := Function.update s.phase t .waiting }
  | acquire (s : SemState K n) (t : Fin n) (m : SlotMeta)
      (hph : s.phase t = .waiting)
      (hslot : s.slots (taskKey t) = some m)
      (hval : 0 < m.semValue) :
      SemStep C taskKey s
        { slots := acquireSlots (taskKey t) m s.slots,
          phase := Function.update s.phase t .inside }
  | exit (s : SemState K n) (t : Fin n) (m : SlotMeta)
      (hph : s.phase t = .inside)
      (hslot : s.slots (taskKey t) = some m) :
      SemStep C taskKey s
        { slots := aexitSlots (taskKey t) m s.slots,
          phase := Function.update s.phase t .done }

/-- States reachable by interleaved execution from the fresh semaphore. -/
inductive SemReachable {K : Type} [DecidableEq K] {n : Nat} (C : Nat)
    (taskKey : Fin n → K) : SemState K n → Prop where
  | init : SemReachable C taskKey (SemState.init K n)
  | step {s s2 : SemState K n} : SemReachable C taskKey s →
      SemStep C taskKey s s2 → SemReachable C taskKey s2

/-- Number of tasks of key `k` currently registered (waiting or inside the
protected section); this is what `registered_tasks` tracks. -/
def registeredCount {K : Type} [DecidableEq K] {n : Nat}
    (taskKey : Fin n → K) (s : SemState K n) (k : K) : Nat :=
  ∑ t : Fin n,
    if (s.phase t = .waiting ∨ s.phase t = .inside) ∧ taskKey t = k then 1 else 0

/-- Number of tasks of key `k` currently inside the protected section. -/
def insideCount {K : Type} [DecidableEq K] {n : Nat}
    (taskKey : Fin n → K) (s : SemState K n) (k : K) : Nat :=
  ∑ t : Fin n, if s.phase t = .inside ∧ taskKey t = k then 1 else 0

/-- The inductive invariant tying the `slots` dictionary to the task
phases: a present slot records exactly the number of registered tasks of
its key, its semaphore value complements the number of tasks inside, and
it is never present with a zero counter; an absent key has no registered
task. -/
def SlotInv {K : Type} [DecidableEq K] {n : Nat} (C : Nat)
    (taskKey : Fin n → K) (s : SemState K n) : Prop :=
  ∀ k : K,
    (∀ m : SlotMeta, s.slots k = some m →
        m.registered_tasks = registeredCount taskKey s k ∧
        m.semValue + insideCount taskKey s k = C ∧
        0 < m.registered_tasks) ∧
    (s.slots k = none → registeredCount taskKey s k = 0)

theorem sum_update_swap {n : Nat} (f g : Fin n → Nat) (t : Fin n)
    (h : ∀ x, x ≠ t → f x = g x) :
    (∑ x : Fin n, g x) + f t = (∑ x : Fin n, f x) + g t := by
  have ht : t ∈ (Finset.univ : Finset (Fin n)) := Finset.mem_univ t
  rw [← Finset.sum_erase_add Finset.univ g ht,
      ← Finset.sum_erase_add Finset.univ f ht]
  have hsame : ∑ x ∈ Finset.univ.erase t, g x
      = ∑ x ∈ Finset.univ.erase t, f x :=
    Finset.sum_congr rfl (fun x hx => (h x (Finset.ne_of_mem_erase hx)).symm)
  rw [hsame]
  omega

theorem insideCount_le_registeredCount {K : Type} [DecidableEq K] {n : Nat}
    (taskKey : Fin n → K) (s : SemState K n) (k : K) :
    insideCount taskKey s k ≤ registeredCount taskKey s k := by
  unfold insideCount registeredCount
  refine Finset.sum_le_sum (fun t _ => ?_)
  by_cases h : s.phase t = .inside ∧ taskKey t = k
  · simp [h, h.1, h.2]
  · simp [h]

theorem one_le_insideCount {K : Type} [DecidableEq K] {n : Nat}
    (taskKey : Fin n → K) (s : SemState K n) (k : K) (t : Fin n)
    (hph : s.phase t = .inside) (hk : taskKey t = k) :
    1 ≤ insideCount taskKey s k := by
  unfold insideCount
  have := Finset.single_le_sum
    (f := fun x : Fin n => if s.phase x = .inside ∧ taskKey x = k then 1 else 0)
    (fun x _ => Nat.zero_le _) (Finset.mem_univ t)
  simpa [hph, hk] using this

theorem one_le_registeredCount {K : Type} [DecidableEq K] {n : Nat}
    (taskKey : Fin n → K) (s : SemState K n) (k : K) (t : Fin n)
    (hph : s.phase t = .waiting ∨ s.phase t = .inside) (hk : taskKey t = k) :
    1 ≤ registeredCount taskKey s k := by
  unfold registeredCount
  have := Finset.single_le_sum
    (f := fun x : Fin n =>
      if (s.phase x = .waiting ∨ s.phase x = .inside) ∧ taskKey x = k then 1 else 0)
    (fun x _ => Nat.zero_le _) (Finset.mem_univ t)
  simpa [hph, hk] using this

theorem count_phase_update {K : Type} [DecidableEq K] {n : Nat}
    (P : TaskPhase → Prop) [DecidablePred P]
    (taskKey : Fin n → K) (ph : Fin n → TaskPhase) (t : Fin n)
    (v : TaskPhase) (k : K) :
    (∑ x : Fin n, if P (Function.update ph t v x) ∧ taskKey x = k then 1 else 0)
      + (if P (ph t) ∧ taskKey t = k then 1 else 0)
    = (∑ x : Fin n, if P (ph x) ∧ taskKey x = k then 1 else 0)
      + (if P v ∧ taskKey t = k then 1 else 0) := by
  have h := sum_update_swap
    (f := fun x : Fin n => if P (ph x) ∧ taskKey x = k then 1 else 0)
    (g := fun x : Fin n =>
      if P (Function.update ph t v x) ∧ taskKey x = k then 1 else 0)
    t (fun x hx => by simp [Function.update_noteq hx])
  simpa [Function.update_same] using h

theorem registeredCount_phase_update {K : Type} [DecidableEq K] {n : Nat}
    (taskKey : Fin n → K) (sl : K → Option SlotMeta) (s : SemState K n)
    (t : Fin n) (v : TaskPhase) (k : K) :
    registeredCount taskKey { slots := sl, phase := Function.update s.phase t v } k
      + (if (s.phase t = .waiting ∨ s.phase t = .inside) ∧ taskKey t = k then 1 else 0)
    = registeredCount taskKey s k
      + (if (v = .waiting ∨ v = .inside) ∧ taskKey t = k then 1 else 0) :=
  count_phase_update (fun p => p = .waiting ∨ p = .inside) taskKey s.phase t v k

theorem insideCount_phase_update {K : Type} [DecidableEq K] {n : Nat}
    (taskKey : Fin n → K) (sl : K → Option SlotMeta) (s : SemState K n)
    (t : Fin n) (v : TaskPhase) (k : K) :
    insideCount taskKey { slots := sl, phase := Function.update s.phase t v } k
      + (if s.phase t = .inside ∧ taskKey t = k then 1 else 0)
    = insideCount taskKey s k
      + (if v = .inside ∧ taskKey t = k then 1 else 0) :=
  count_phase_update (fun p => p = .inside) taskKey s.phase t v k

theorem slotInv_init {K : Type} [DecidableEq K] {n : Nat} (C : Nat)
    (taskKey : Fin n → K) : SlotInv C taskKey (SemState.init K n) := by
  intro k
  constructor
  · intro m hm
    simp [SemState.init] at hm
  · intro _
    simp [registeredCount, SemState.init]

theorem slotInv_step {K : Type} [DecidableEq K] {n : Nat} {C : Nat}
    {taskKey : Fin n → K} {s s2 : SemState K n}
    (hinv : SlotInv C taskKey s) (hstep : SemStep C taskKey s s2) :
    SlotInv C taskKey s2 := by
  cases hstep with
  | enter t hph =>
    intro k
    have hreg := registeredCount_phase_update taskKey
      (aenterSlots C (taskKey t) s.slots) s t .waiting k
    have hins := insideCount_phase_update taskKey
      (aenterSlots C (taskKey t) s.slots) s t .waiting k
    by_cases hk : taskKey t = k
    · subst hk
      simp [hph] at hreg hins
      cases hsl : s.slots (taskKey t) with
      | none =>
        have h0 : registeredCount taskKey s (taskKey t) = 0 := (hinv (taskKey t)).2 hsl
        have hi0 : insideCount taskKey s (taskKey t) = 0 :=
          Nat.le_antisymm (h0 ▸ insideCount_le_registeredCount taskKey s (taskKey t))
            (Nat.zero_le _)
        constructor
        · intro m2 hm2
          have hm2x : (aenterSlots C (taskKey t) s.slots) (taskKey t) = some m2 := hm2
          simp only [aenterSlots, hsl, Option.getD_none, Function.update_same,
            Option.some.injEq] at hm2x
          subst hm2x
          refine ⟨?_, ?_, ?_⟩ <;> simp <;> omega
        · intro hnone
          have hx : (aenterSlots C (taskKey t) s.slots) (taskKey t) = none := hnone
          simp [aenterSlots, Function.update_same] at hx
      | some m =>
        obtain ⟨h1, h2, h3⟩ := (hinv (taskKey t)).1 m hsl
        constructor
        · intro m2 hm2
          have hm2x : (aenterSlots C (taskKey t) s.slots) (taskKey t) = some m2 := hm2
          simp only [aenterSlots, hsl, Option.getD_some, Function.update_same,
            Option.some.injEq] at hm2x
          subst hm2x
          refine ⟨?_, ?_, ?_⟩ <;> simp <;> omega
        · intro hnone
          have hx : (aenterSlots C (taskKey t) s.slots) (taskKey t) = none := hnone
          simp [aenterSlots, Function.update_same] at hx
    · have hslots : (aenterSlots C (taskKey t) s.slots) k = s.slots k := by
        simp [aenterSlots, Function.update_noteq (Ne.symm hk)]
      simp [hk] at hreg hins
      constructor
      · intro m2 hm2
        have hm2x : s.slots k = some m2 := by rw [← hslots]; exact hm2
        obtain ⟨h1, h2, h3⟩ := (hinv k).1 m2 hm2x
        exact ⟨by omega, by omega, h3⟩
      · intro hnone
        have hx : s.slots k = none := by rw [← hslots]; exact hnone
        have := (hinv k).2 hx
        omega
  | acquire t m hph hslot hval =>
    intro k
    have hreg := registeredCount_phase_update taskKey
      (acquireSlots (taskKey t) m s.slots) s t .inside k
    have hins := insideCount_phase_update taskKey
      (acquireSlots (taskKey t) m s.slots) s t .inside k
    by_cases hk : taskKey t = k
    · subst hk
      simp [hph] at hreg hins
      obtain ⟨h1, h2, h3⟩ := (hinv (taskKey t)).1 m hslot
      constructor
      · intro m2 hm2
        have hm2x : (acquireSlots (taskKey t) m s.slots) (taskKey t) = some m2 := hm2
        simp only [acquireSlots, Function.update_same, Option.some.injEq] at hm2x
        subst hm2x
        refine ⟨?_, ?_, ?_⟩ <;> simp <;> omega
      · intro hnone
        have hx : (acquireSlots (taskKey t) m s.slots) (taskKey t) = none := hnone
        simp [acquireSlots, Function.update_same] at hx
    · have hslots : (acquireSlots (taskKey t) m s.slots) k = s.slots k := by
        simp [acquireSlots, Function.update_noteq (Ne.symm hk)]
      simp [hk] at hreg hins
      constructor
      · intro m2 hm2
        have hm2x : s.slots k = some m2 := by rw [← hslots]; exact hm2
        obtain ⟨h1, h2, h3⟩ := (hinv k).1 m2 hm2x
        exact ⟨by omega, by omega, h3⟩
      · intro hnone
        have hx : s.slots k = none := by rw [← hslots]; exact hnone
        have := (hinv k).2 hx
        omega
  | exit t m hph hslot =>
    intro k
    have hreg := registeredCount_phase_update taskKey
      (aexitSlots (taskKey t) m s.slots) s t .done k
    have hins := insideCount_phase_update taskKey
      (aexitSlots (taskKey t) m s.slots) s t .done k
    by_cases hk : taskKey t = k
    · subst hk
      simp [hph] at hreg hins
      obtain ⟨h1, h2, h3⟩ := (hinv (taskKey t)).1 m hslot
      have hone : 1 ≤ insideCount taskKey s (taskKey t) :=
        one_le_insideCount taskKey s (taskKey t) t hph rfl
      by_cases hz : m.registered_tasks - 1 = 0
      · have hdel : (aexitSlots (taskKey t) m s.slots) (taskKey t) = none := by
          simp [aexitSlots, hz, Function.update_same]
        constructor
        · intro m2 hm2
          have hm2x : (aexitSlots (taskKey t) m s.slots) (taskKey t) = some m2 := hm2
          rw [hdel] at hm2x
          exact absurd hm2x (by simp)
        · intro _
          omega
      · have hkeep : (aexitSlots (taskKey t) m s.slots) (taskKey t)
            = some { semValue := m.semValue + 1,
                     registered_tasks := m.registered_tasks - 1 } := by
          simp [aexitSlots, hz, Function.update_same]
        constructor
        · intro m2 hm2
          have hm2x : (aexitSlots (taskKey t) m s.slots) (taskKey t) = some m2 := hm2
          rw [hkeep] at hm2x
          simp only [Option.some.injEq] at hm2x
          subst hm2x
          refine ⟨?_, ?_, ?_⟩ <;> simp <;> omega
        · intro hnone
          have hx : (aexitSlots (taskKey t) m s.slots) (taskKey t) = none := hnone
          rw [hkeep] at hx
          exact absurd hx (by simp)
    · have hslots : (aexitSlots (taskKey t) m s.slots) k = s.slots k := by
        unfold aexitSlots
        by_cases hz : m.registered_tasks - 1 = 0 <;>
          simp [hz, Function.update_noteq (Ne.symm hk)]
      simp [hk] at hreg hins
      constructor
      · intro m2 hm2
        have hm2x : s.slots k = some m2 := by rw [← hslots]; exact hm2
        obtain ⟨h1, h2, h3⟩ := (hinv k).1 m2 hm2x
        exact ⟨by omega, by omega, h3⟩
      · intro hnone
        have hx : s.slots k = none := by rw [← hslots]; exact hnone
        have := (hinv k).2 hx
        omega

/-- Every reachable state of a `SlotsSemaphore` satisfies the slot
invariant. -/
theorem semReachable_slotInv {K : Type} [DecidableEq K] {n : Nat} {C : Nat}
    {taskKey : Fin n → K} {s : SemState K n}
    (hs : SemReachable C taskKey s) : SlotInv C taskKey s := by
  induction hs with
  | init => exact slotInv_init C taskKey
  | step _ hstep ih => exact slotInv_step ih hstep

/-- Claim C1: for every capacity `C ≥ 1` of `SlotsSemaphore(C)` and every
number of tasks executed through `run`/`use_slot`, in every reachable
state of the interleaved execution at most `C` tasks of any single slot
key are inside the protected section; moreover a waiting task's
`semaphore.acquire()` guard is satisfied exactly when fewer than `C`
tasks of the *same* key are inside, so a task is never delayed by tasks
that use a different slot key. -/
theorem slots_semaphore_per_slot_capacity {K : Type} [DecidableEq K]
    {n : Nat} {C : Nat} {taskKey : Fin n → K} {s : SemState K n}
    (hC : 1 ≤ C) (hs : SemReachable C taskKey s) (k : K) :
    insideCount taskKey s k ≤ C ∧
    (∀ t : Fin n, s.phase t = .waiting → taskKey t = k →
      ∃ m : SlotMeta, s.slots k = some m ∧
        (0 < m.semValue ↔ insideCount taskKey s k < C)) := by
  have hinv := semReachable_slotInv hs
  constructor
  · cases hsl : s.slots k with
    | some m =>
      obtain ⟨h1, h2, h3⟩ := (hinv k).1 m hsl
      omega
    | none =>
      have h0 := (hinv k).2 hsl
      have hle := insideCount_le_registeredCount taskKey s k
      omega
  · intro t hw hkt
    cases hsl : s.slots k with
    | none =>
      have h0 := (hinv k).2 hsl
      have h1 := one_le_registeredCount taskKey s k t (Or.inl hw) hkt
      omega
    | some m =>
      obtain ⟨h1, h2, h3⟩ := (hinv k).1 m hsl
      exact ⟨m, rfl, by omega⟩

/-- Claim C2: in every state between atomic operations of a
`SlotsSemaphore`, a key is present in `self.slots` exactly when its
`registered_tasks` count (the number of tasks waiting for or inside the
protected section of that key) is positive; in particular once every task
that used a key has completed — normally or with an exception — the key
is absent from the dictionary. -/
theorem slots_semaphore_key_iff_registered {K : Type} [DecidableEq K]
    {n : Nat} {C : Nat} {taskKey : Fin n → K} {s : SemState K n}
    (hs : SemReachable C taskKey s) :
    (∀ k : K, (s.slots k).isSome = true ↔ 0 < registeredCount taskKey s k) ∧
    (∀ k : K, (∀ t : Fin n, taskKey t = k →
        s.phase t = .notStarted ∨ s.phase t = .done) → s.slots k = none) := by
  have hinv := semReachable_slotInv hs
  constructor
  · intro k
    cases hsl : s.slots k with
    | some m =>
      obtain ⟨h1, h2, h3⟩ := (hinv k).1 m hsl
      simp
      omega
    | none =>
      have h0 := (hinv k).2 hsl
      simp
      omega
  · intro k hall
    cases hsl : s.slots k with
    | none => rfl
    | some m =>
      obtain ⟨h1, h2, h3⟩ := (hinv k).1 m hsl
      have hz : registeredCount taskKey s k = 0 := by
        unfold registeredCount
        apply Finset.sum_eq_zero
        intro t _
        by_cases hkt : taskKey t = k
        · rcases hall t hkt with h | h <;> simp [h]
        · simp [hkt]
      omega

/-! A concrete interleaving used by the claim witnesses: two tasks share
the single key `0` of a `SlotsSemaphore(1)`; task `0` registers and
acquires, task `1` registers while task `0` is inside, then task `0`
exits, task `1` acquires and exits, emptying the `slots` dictionary. -/

def demoKey : Fin 2 → Fin 1 := fun _ => 0

def demoS1 : SemState (Fin 1) 2 :=
  { slots := aenterSlots 1 (demoKey 0) (SemState.init (Fin 1) 2).slots,
    phase := Function.update (SemState.init (Fin 1) 2).phase 0 .waiting }

def demoS2 : SemState (Fin 1) 2 :=
  { slots := acquireSlots (demoKey 0) { semValue := 1, registered_tasks := 1 } demoS1.slots,
    phase := Function.update demoS1.phase 0 .inside }

def demoS3 : SemState (Fin 1) 2 :=
  { slots := aenterSlots 1 (demoKey 1) demoS2.slots,
    phase := Function.update demoS2.phase 1 .waiting }

def demoS4 : SemState (Fin 1) 2 :=
  { slots := aexitSlots (demoKey 0) { semValue := 0, registered_tasks := 2 } demoS3.slots,
    phase := Function.update demoS3.phase 0 .done }

def demoS5 : SemState (Fin 1) 2 :=
  { slots := acquireSlots (demoKey 1) { semValue := 1, registered_tasks := 1 } demoS4.slots,
    phase := Function.update demoS4.phase 1 .inside }

def demoS6 : SemState (Fin 1) 2 :=
  { slots := aexitSlots (demoKey 1) { semValue := 0, registered_tasks := 1 } demoS5.slots,
    phase := Function.update demoS5.phase 1 .done }

theorem demoReach3 : SemReachable 1 demoKey demoS3 :=
  SemReachable.step
    (SemReachable.step
      (SemReachable.step SemReachable.init
        (SemStep.enter (SemState.init (Fin 1) 2) 0 (by decide)))
      (SemStep.acquire demoS1 0 { semValue := 1, registered_tasks := 1 }
        (by decide) (by decide) (by decide)))
    (SemStep.enter demoS2 1 (by decide))

theorem demoReach6 : SemReachable 1 demoKey demoS6 :=
  SemReachable.step
    (SemReachable.step
      (SemReachable.step demoReach3
        (SemStep.exit demoS3 0 { semValue := 0, registered_tasks := 2 }
          (by decide) (by decide)))
      (SemStep.acquire demoS4 1 { semValue := 1, registered_tasks := 1 }
        (by decide) (by decide) (by decide)))
    (SemStep.exit demoS5 1 { semValue := 0, registered_tasks := 1 }
      (by decide) (by decide))

/-- Witness for claim C1 at the concrete interleaving: with capacity `1`
and task `0` inside while task `1` waits, the bound and the enabledness
characterization hold. -/
theorem slots_semaphore_per_slot_capacity_witness :
    (1 : Nat) ≤ 1 ∧
    (insideCount demoKey demoS3 0 ≤ 1 ∧
      (∀ t : Fin 2, demoS3.phase t = .waiting → demoKey t = 0 →
        ∃ m : SlotMeta, demoS3.slots 0 = some m ∧
          (0 < m.semValue ↔ insideCount demoKey demoS3 0 < 1))) :=
  ⟨by decide, slots_semaphore_per_slot_capacity (by decide) demoReach3 0⟩

/-- Witness for claim C2 at the concrete interleaving: after both tasks
completed, the key is absent from the dictionary, and presence is
equivalent to a positive registered count. -/
theorem slots_semaphore_key_iff_registered_witness :
    (∀ k : Fin 1, (demoS6.slots k).isSome = true ↔
        0 < registeredCount demoKey demoS6 k) ∧
    (∀ k : Fin 1, (∀ t : Fin 2, demoKey t = k →
        demoS6.phase t = .notStarted ∨ demoS6.phase t = .done) →
      demoS6.slots k = none) :=
  slots_semaphore_key_iff_registered demoReach6

/-! ## Model of `scrapy_autoextract/task_manager.py`

`TaskManager.run` is synchronous (no suspension point) from its start up
to `await task`; in particular when `self.cancelled` is already true the
whole call runs atomically: `asyncio.create_task(awaitable)` (which
schedules the coroutine on the event loop), `self.running_tasks.add`,
the flag check raising `CancelledError`, and the `finally` block's
`self.running_tasks.remove`.  Tasks are identified by ids; `scheduled`
records every awaitable handed to `asyncio.create_task` and
`cancelRequested` every task on which `.cancel()` was called. -/

structure TMState where
  running_tasks : List Nat
  cancelled : Bool
  scheduled : List Nat
  cancelRequested : List Nat
  deriving DecidableEq, Repr

/-- A `TaskManager()` as built by `__init__`. -/
def TMState.start : TMState :=
  { running_tasks := [], cancelled := false, scheduled := [], cancelRequested := [] }

/-- Model of `TaskManager.cancel_all`: set the flag, then call `task.cancel()` on
every currently registered task. -/
def cancel_all (s : TMState) : TMState :=
  { s with cancelled := true,
           cancelRequested := s.cancelRequested ++ s.running_tasks }

/-- What `TaskManager.run` does after its synchronous prefix. -/
inductive RunStart where
  | raisedCancelled
  | awaitingTask
  deriving DecidableEq, Repr

/-- The synchronous prefix of `TaskManager.run` for a fresh task id:
`task = asyncio.create_task(awaitable)` schedules the work, the task is
registered, and then either `CancelledError` is raised (with the
`finally` block deregistering the task) or the call proceeds to
`await task`. -/
def taskManagerRunStart (s : TMState) (tid : Nat) : TMState × RunStart :=
  let s1 : TMState := { s with scheduled := s.scheduled ++ [tid] }
  let s2 : TMState := { s1 with running_tasks := s1.running_tasks ++ [tid] }
  if s2.cancelled then
    ({ s2 with running_tasks := s2.running_tasks.erase tid }, .raisedCancelled)
  else
    (s2, .awaitingTask)

/-- Counterexample for claim C3: on a manager on which `cancel_all()` has
run, `run(work)` does raise a cancellation error, but the submitted work
IS scheduled — `asyncio.create_task` is called before the `self.cancelled`
check — and no `.cancel()` is requested for it, so the claim's "never
started or scheduled" part is false at this concrete input. -/
theorem run_after_cancel_schedules_work_counterexample :
    (taskManagerRunStart (cancel_all TMState.start) 0).2 = RunStart.raisedCancelled ∧
    (taskManagerRunStart (cancel_all TMState.start) 0).1.scheduled = [0] ∧
    ¬((taskManagerRunStart (cancel_all TMState.start) 0).1.scheduled = []) ∧
    ¬(0 ∈ (taskManagerRunStart (cancel_all TMState.start) 0).1.cancelRequested) := by
  decide

/-- Claim C3 (amended): after `cancel_all()`, every subsequent
`run(work)` fails with `CancelledError` before awaiting the work and
leaves `running_tasks` as it was; however the work is first handed to
`asyncio.create_task`, so it is scheduled on the event loop (and the
manager never requests its cancellation). -/
theorem run_after_cancel_raises_but_schedules (s : TMState) (tid : Nat)
    (hc : s.cancelled = true) (hfresh : tid ∉ s.running_tasks) :
    taskManagerRunStart s tid
      = ({ s with scheduled := s.scheduled ++ [tid] }, .raisedCancelled) := by
  have h1 : (s.running_tasks ++ [tid]).erase tid = s.running_tasks := by
    rw [List.erase_append_right _ hfresh]
    simp
  unfold taskManagerRunStart
  simp [hc, h1]

/-- Witness for the amended claim C3 at a concrete manager. -/
theorem run_after_cancel_raises_but_schedules_witness :
    (cancel_all TMState.start).cancelled = true ∧
    (7 : Nat) ∉ (cancel_all TMState.start).running_tasks ∧
    taskManagerRunStart (cancel_all TMState.start) 7
      = ({ cancel_all TMState.start with
            scheduled := (cancel_all TMState.start).scheduled ++ [7] },
          .raisedCancelled) :=
  ⟨rfl, by decide,
    run_after_cancel_raises_but_schedules (cancel_all TMState.start) 7 rfl (by decide)⟩

/-- Observable events of the installed signal handler. -/
inductive HandlerEvent where
  | oldHandlerInvoked
  | cancelAllInvoked
  deriving DecidableEq, Repr

/-- Model of `TaskManager._cancel_on_signal`: logs and calls `self.cancel_all()`. -/
def cancelOnSignal (s : TMState) : TMState :=
  cancel_all s

/-- The closure `new_handler` that `_install_signal_handler` installs via
`signal.signal`, executed on signal delivery.  `old` is the behaviour of
the previously installed handler: `none` when `signal.getsignal` returned
a non-callable (`SIG_DFL`/`SIG_IGN`), `some (.ok ())` a callable handler
that returns, `some (.error e)` a callable handler that raises `e` (the
`try`/`except BaseException` stores it in `exception`).  Returns the new
manager state, the ordered trace of invocations, and the exception the
handler re-raises at the end, if any. -/
def newSignalHandler {E : Type} (old : Option (Except E Unit)) (s : TMState) :
    (TMState × List HandlerEvent) × Option E :=
  let oldStep : Option E × List HandlerEvent :=
    match old with
    | none => (none, [])
    | some (.ok _) => (none, [.oldHandlerInvoked])
    | some (.error e) => (some e, [.oldHandlerInvoked])
  let s2 := cancelOnSignal s
  ((s2, oldStep.2 ++ [.cancelAllInvoked]), oldStep.1)

/-- Claim C4: when a callable handler was previously installed,
delivering the signal invokes the old handler first and `cancel_all`
afterwards; `cancel_all` runs (the flag is set and every registered task
gets a `.cancel()` request) even when the old handler raises, and the old
handler's exception, if any, is re-raised after cancellation was
triggered. -/
theorem signal_handler_preserves_old_and_cancels {E : Type}
    (b : Except E Unit) (s : TMState) :
    newSignalHandler (some b) s
      = ((cancel_all s, [.oldHandlerInvoked, .cancelAllInvoked]),
          match b with | .ok _ => none | .error e => some e) ∧
    (newSignalHandler (some b) s).1.1.cancelled = true ∧
    (newSignalHandler (some b) s).1.1.cancelRequested
      = s.cancelRequested ++ s.running_tasks := by
  cases b <;> simp [newSignalHandler, cancelOnSignal, cancel_all]

/-! ## Model of `scrapy_autoextract/providers.py`, `errors.py` and the
cache interface of `cache.py`

Python dictionaries are association lists in insertion order, raised
exceptions are `Except` values, and the external AutoExtract transport
(`autoextract.aio.request_raw`) is a parameter returning the list of
response payloads together with the `AggStats` it accumulated. -/

/-- JSON-like values appearing in AutoExtract payloads. -/
inductive JValue where
  | str (s : String)
  | num (n : Int)
  | bool (b : Bool)
  | null
  | arr (xs : List JValue)
  | obj (fields : List (String × JValue))

/-- A response payload / query dictionary. -/
abbrev Payload := List (String × JValue)

/-- Python exceptions raised by the modelled code. -/
inductive PyExc where
  | assertionError
  | indexError
  | keyError (key : String)
  | typeError
  | runtimeError (msg : String)
  | cancelledError
  | valueError (msg : String)
  | queryError (query : JValue) (message : JValue)
  | requestError (errType : String)

/-- Model of `key in data` on a Python dict. -/
def hasKey (p : Payload) (k : String) : Bool :=
  p.any (fun kv => kv.1 == k)

/-- Model of `data[k]` on a Python dict: the value, or a `KeyError`. -/
def pyGet (p : Payload) (k : String) : Except PyExc JValue :=
  match p.find? (fun kv => kv.1 == k) with
  | some kv => .ok kv.2
  | none => .error (.keyError k)

/-- Rendering used when an exception message is interpolated into a stats
key (`f"/query/(msg)"`); only its value on strings matters to any claim. -/
def pyStr : JValue → String
  | .str s => s
  | .num n => toString n
  | .bool b => if b then "True" else "False"
  | .null => "None"
  | .arr _ => "<list>"
  | .obj _ => "<dict>"

/-- Exception class names, as used by `summarize_exception` for
non-`QueryError` exceptions. -/
def excClassName : PyExc → String
  | .assertionError => "AssertionError"
  | .indexError => "IndexError"
  | .keyError _ => "KeyError"
  | .typeError => "TypeError"
  | .runtimeError _ => "RuntimeError"
  | .cancelledError => "CancelledError"
  | .valueError _ => "ValueError"
  | .queryError _ _ => "QueryError"
  | .requestError _ => "RequestError"

/-- Model of `summarize_exception` from `errors.py`: a `QueryError` contributes
`/query/` plus its (possibly normalized) message, every other exception
contributes `/rest/` plus its class name.  `domainOccupied` models the
external `DomainOccupied.from_message` matcher. -/
def summarize_exception (domainOccupied : String → Bool) (exc : PyExc) : String :=
  match exc with
  | .queryError _ message =>
    let msg0 := pyStr message
    let msg := if domainOccupied msg0 then "domain occupied" else msg0
    "/query/" ++ msg
  | e => "/rest/" ++ excClassName e

/-- An `autoextract.request.Request` as built by `get_filled_request`. -/
structure AERequest where
  url : String
  pageType : String
  extra : Option Payload

/-- Scrapy stats as the orchestrator sees them: `inc_value` starts absent
keys at 0, so a counter is its value, absent ≡ 0. -/
def Stats : Type := String → Nat

/-- Model of `StatsCollector.inc_value`. -/
def incValue (st : Stats) (key : String) (count : Nat) : Stats :=
  fun k => if k = key then st k + count else st k

/-- Model of `autoextract.stats.AggStats`, the per-call transport counters. -/
structure AggStats where
  n_attempts : Nat
  n_billable_query_responses : Nat
  deriving DecidableEq, Repr

def AggStats.zero : AggStats :=
  { n_attempts := 0, n_billable_query_responses := 0 }

/-- The provider's cache: `DummyCache` (caching disabled) or the
persistent `AutoExtractCache` keyed by fingerprint strings. -/
inductive CacheState where
  | dummy
  | store (entries : List (String × List Payload))

/-- Model of `self.cache.fingerprint(query[0])`: constant for `DummyCache`;
`fpFun` models `AutoExtractCache.fingerprint`, the canonical sorted-key
JSON serialization of `request.as_dict()`. -/
def cacheFingerprint (c : CacheState) (fpFun : AERequest → String)
    (q : AERequest) : String :=
  match c with
  | .dummy => ""
  | .store _ => fpFun q

/-- Model of `self.cache[fp]`: `DummyCache.__getitem__` always raises `KeyError`
(`none`); the store looks the fingerprint up. -/
def cacheLookup : CacheState → String → Option (List Payload)
  | .dummy, _ => none
  | .store es, fp => (es.find? (fun kv => kv.1 == fp)).map (fun kv => kv.2)

/-- Model of `self.cache[fp] = response`: discarded by `DummyCache.__setitem__`;
the store replaces or appends the entry. -/
def cacheStore : CacheState → String → List Payload → CacheState
  | .dummy, _, _ => .dummy
  | .store es, fp, v =>
    if es.any (fun kv => kv.1 == fp) then
      .store (es.map (fun kv => if kv.1 == fp then (kv.1, v) else kv))
    else
      .store (es ++ [(fp, v)])

/-- The mutable state of an `AutoExtractProvider` visible to the claims:
the crawler stats, the cache, whether `_stop_if_account_disabled` shut
the spider down, and (instrumentation) how many times `do_request`
reached the transport. -/
structure ProviderState where
  stats : Stats
  cache : CacheState
  crawlerStopped : Bool
  transportCalls : Nat

/-- A provider over a fresh crawler. -/
def initialProviderState (c : CacheState) : ProviderState :=
  { stats := fun _ => 0, cache := c, crawlerStopped := false, transportCalls := 0 }

/-- The external AutoExtract HTTP transport (`request_raw`): response
payloads plus the `AggStats` it accumulated into `agg_stats`. -/
abbrev Transport := List AERequest → List Payload × AggStats

/-- Model of `AutoExtractProvider.do_request`: awaits `request_raw`. -/
def do_request (transport : Transport) (s : ProviderState)
    (query : List AERequest) : ProviderState × List Payload × AggStats :=
  ({ s with transportCalls := s.transportCalls + 1 }, transport query)

/-- Result of `do_request_cached`: the provider state, the returned
response or the raised exception, and the `request_stats` contents after
the call. -/
structure DRCResult where
  state : ProviderState
  response : Except PyExc (List Payload)
  aggStats : AggStats

/-- Model of `AutoExtractProvider.do_request_cached`: assert the batch has exactly
one query, try the cache (counting hits), otherwise perform the request
and cache the response unless its first payload carries an `"error"`
key. -/
def do_request_cached (fpFun : AERequest → String) (transport : Transport)
    (s : ProviderState) (query : List AERequest) : DRCResult :=
  match query with
  | [q0] =>
    let fp := cacheFingerprint s.cache fpFun q0
    match cacheLookup s.cache fp with
    | some response =>
      { state := { s with stats := incValue s.stats "autoextract/cache/hit" 1 },
        response := .ok response, aggStats := AggStats.zero }
    | none =>
      let s1 : ProviderState :=
        { s with stats := incValue s.stats "autoextract/cache/miss" 1 }
      let (s2, response, agg) := do_request transport s1 query
      match response with
      | [] =>
        -- `"error" not in response[0]` raises `IndexError` on an empty response
        { state := s2, response := .error .indexError, aggStats := agg }
      | r0 :: rest =>
        if hasKey r0 "error" = false then
          let s3 : ProviderState := { s2 with cache := cacheStore s2.cache fp (r0 :: rest) }
          { state := { s3 with stats := incValue s3.stats "autoextract/cache/firsthand" 1 },
            response := .ok (r0 :: rest), aggStats := agg }
        else
          { state := { s2 with stats := incValue s2.stats "autoextract/cache/uncacheable" 1 },
            response := .ok (r0 :: rest), aggStats := agg }
  | _ =>
    { state := s, response := .error .assertionError, aggStats := AggStats.zero }

/-- Unfolding of the branch taken when the transport answers a payload
that carries the `"error"` marker and the cache missed. -/
theorem do_request_cached_error_branch (fpFun : AERequest → String)
    (transport : Transport) (s : ProviderState) (q0 : AERequest)
    (r0 : Payload) (rest : List Payload) (agg : AggStats)
    (htr : transport [q0] = (r0 :: rest, agg))
    (herr : hasKey r0 "error" = true)
    (hmiss : cacheLookup s.cache (cacheFingerprint s.cache fpFun q0) = none) :
    do_request_cached fpFun transport s [q0]
      = { state :=
            { s with
              stats := incValue (incValue s.stats "autoextract/cache/miss" 1)
                "autoextract/cache/uncacheable" 1,
              transportCalls := s.transportCalls + 1 },
          response := .ok (r0 :: rest), aggStats := agg } := by
  simp [do_request_cached, do_request, hmiss, htr, herr]

/-- Claim C5: `do_request_cached` never writes a response whose first
payload carries the `"error"` marker into the cache — every call either
leaves the cache unchanged or stores a transport response whose first
payload has no `"error"` key — and consequently, when the transport
answers a query-level error on a cache miss, the cache stays unchanged
and an identical later query misses again and reaches the transport a
second time. -/
theorem do_request_cached_never_caches_errors
    (fpFun : AERequest → String) (transport : Transport) (s : ProviderState)
    (query : List AERequest) :
    ((do_request_cached fpFun transport s query).state.cache = s.cache ∨
      ∃ q0 r0 rest agg, query = [q0] ∧ transport [q0] = (r0 :: rest, agg) ∧
        hasKey r0 "error" = false ∧
        (do_request_cached fpFun transport s query).state.cache
          = cacheStore s.cache (cacheFingerprint s.cache fpFun q0) (r0 :: rest)) ∧
    (∀ q0 r0 rest agg, query = [q0] →
      transport [q0] = (r0 :: rest, agg) →
      hasKey r0 "error" = true →
      cacheLookup s.cache (cacheFingerprint s.cache fpFun q0) = none →
      (do_request_cached fpFun transport s query).state.cache = s.cache ∧
      (do_request_cached fpFun transport s query).state.transportCalls
        = s.transportCalls + 1 ∧
      (do_request_cached fpFun transport
          (do_request_cached fpFun transport s query).state query).state.transportCalls
        = s.transportCalls + 2) := by
  constructor
  · match query with
    | [] => left; rfl
    | q0 :: q1 :: qs => left; rfl
    | [q0] =>
      cases hl : cacheLookup s.cache (cacheFingerprint s.cache fpFun q0) with
      | some response =>
        left
        simp [do_request_cached, hl]
      | none =>
        cases htr : transport [q0] with
        | mk payloads agg =>
          cases payloads with
          | nil =>
            left
            simp [do_request_cached, do_request, hl, htr]
          | cons r0 rest =>
            by_cases herr : hasKey r0 "error" = false
            · right
              exact ⟨q0, r0, rest, agg, rfl, htr, herr,
                by simp [do_request_cached, do_request, hl, htr, herr]⟩
            · left
              rw [Bool.not_eq_false] at herr
              simp [do_request_cached, do_request, hl, htr, herr]
  · intro q0 r0 rest agg hq htr herr hmiss
    subst hq
    have h1 := do_request_cached_error_branch fpFun transport s q0 r0 rest agg
      htr herr hmiss
    have h2 := do_request_cached_error_branch fpFun transport
      { s with
        stats := incValue (incValue s.stats "autoextract/cache/miss" 1)
          "autoextract/cache/uncacheable" 1,
        transportCalls := s.transportCalls + 1 }
      q0 r0 rest agg htr herr hmiss
    refine ⟨?_, ?_, ?_⟩
    · rw [h1]
    · rw [h1]
    · rw [h1, h2]

/-- Concrete inputs exercising the error-response path of
`do_request_cached` (the payload below is the scenario B payload). -/
def wReq : AERequest :=
  { url := "http://example.com", pageType := "article", extra := none }

def wErrPayload : Payload :=
  [("query", .str "Q"), ("error", .str "E")]

def wErrTransport : Transport :=
  fun _ => ([wErrPayload], AggStats.zero)

def wFp : AERequest → String :=
  fun _ => "f"

/-- Witness for claim C5: on a fresh persistent cache, a query answered
by an error payload leaves the cache unchanged, reaches the transport,
and an identical second query reaches the transport again. -/
theorem do_request_cached_never_caches_errors_witness :
    (do_request_cached wFp wErrTransport (initialProviderState (.store [])) [wReq]).state.cache
      = (initialProviderState (.store [])).cache ∧
    (do_request_cached wFp wErrTransport (initialProviderState (.store [])) [wReq]).state.transportCalls
      = (initialProviderState (.store [])).transportCalls + 1 ∧
    (do_request_cached wFp wErrTransport
        (do_request_cached wFp wErrTransport (initialProviderState (.store [])) [wReq]).state
        [wReq]).state.transportCalls
      = (initialProviderState (.store [])).transportCalls + 2 :=
  (do_request_cached_never_caches_errors wFp wErrTransport
      (initialProviderState (.store [])) [wReq]).2
    wReq wErrPayload [] AggStats.zero rfl rfl rfl rfl

/-- Claim C9: `do_request_cached` requires a batch of exactly one query;
for every batch whose length is not 1, the `assert` fails before the
cache or the transport is touched — the state (cache, stats, transport
call count) is returned unchanged with an `AssertionError`. -/
theorem do_request_cached_asserts_single_query
    (fpFun : AERequest → String) (transport : Transport) (s : ProviderState)
    (query : List AERequest) (h : query.length ≠ 1) :
    do_request_cached fpFun transport s query
      = { state := s, response := .error .assertionError,
          aggStats := AggStats.zero } := by
  match query with
  | [] => rfl
  | [q0] => exact absurd rfl h
  | q0 :: q1 :: qs => rfl

/-- Witness for claim C9 at the concrete empty batch. -/
theorem do_request_cached_asserts_single_query_witness :
    ([] : List AERequest).length ≠ 1 ∧
    do_request_cached wFp wErrTransport (initialProviderState .dummy) []
      = { state := initialProviderState .dummy,
          response := .error .assertionError, aggStats := AggStats.zero } :=
  ⟨by decide,
    do_request_cached_asserts_single_query wFp wErrTransport
      (initialProviderState .dummy) [] (by decide)⟩

/-- The page-object classes the provider can be asked for
(`provided_classes`): subclasses of `AutoExtractData`, identified by
their `page_type`, and `AutoExtractHtml`. -/
inductive AEClass where
  | data (page_type : String)
  | html
  deriving DecidableEq, Repr

/-- Model of `AutoExtractProvider.page_type_class_for_html` is
`AutoExtractProductData` (page type `"product"`). -/
def page_type_class_for_html : AEClass := .data "product"

/-- Model of `AutoExtractProvider.html_query_attribute`. -/
def html_query_attribute : String := "fullHtml"

/-- Model of `provided_cls.page_type`.  `list_required_requests` raises before
this is ever taken on `AutoExtractHtml`, which has no such attribute. -/
def pageTypeOf : AEClass → String
  | .data pt => pt
  | .html => "html"

/-- Model of `AutoExtractProvider.get_filled_request`. -/
def get_filled_request (request_url : String) (provided_cls : AEClass)
    (should_request_html : Bool) : AERequest :=
  let ae : AERequest :=
    { url := request_url, pageType := pageTypeOf provided_cls, extra := none }
  if should_request_html then
    { ae with extra := some [(html_query_attribute, .bool true)] }
  else
    ae

/-- Model of `AERequestSpec` from `providers.py`. -/
structure AERequestSpec where
  query : List AERequest
  should_request_html : Bool
  is_extraction_required : Bool
  provided_cls : AEClass

/-- The body of the `for provided_cls in to_provide` loop of
`list_required_requests`: raise `RuntimeError` for a class that is not an
`AutoExtractData` subclass, otherwise build the spec, marking it for full
content exactly when html is required and this is the chosen class. -/
def buildSpec (request_url : String) (is_html_required : Bool)
    (is_extraction_required : Bool) (class_for_html : AEClass)
    (provided_cls : AEClass) : Except PyExc AERequestSpec :=
  match provided_cls with
  | .html => .error (.runtimeError "Unexpected class requested")
  | .data _ =>
    let should_request_html := is_html_required && (provided_cls == class_for_html)
    .ok { query := [get_filled_request request_url provided_cls should_request_html],
          should_request_html := should_request_html,
          is_extraction_required := is_extraction_required,
          provided_cls := provided_cls }

/-- Model of `AutoExtractProvider.list_required_requests`.  The Python set
`to_provide` is a list of distinct classes in iteration order.
`to_provide -= (AutoExtractHtml)` mutates the caller's set in place, so
the first component is the set the caller observes after the call; the
later `to_provide = (page_type_class_for_html)` only rebinds the local
name.  The second component is the returned spec list or the raised
exception. -/
def list_required_requests (to_provide : List AEClass) (request_url : String) :
    List AEClass × Except PyExc (List AERequestSpec) :=
  let is_html_required := to_provide.contains .html
  let caller := to_provide.filter (fun c => !(c == AEClass.html))
  let is_extraction_required := !caller.isEmpty
  let tp := if is_html_required && caller.isEmpty then [page_type_class_for_html]
            else caller
  (caller,
    match tp with
    | [] => .ok []
    | c0 :: rest =>
      let class_for_html :=
        if (c0 :: rest).contains page_type_class_for_html then page_type_class_for_html
        else c0
      (c0 :: rest).mapM
        (buildSpec request_url is_html_required is_extraction_required class_for_html))

/-- The typed page inputs `__call__` returns: `AutoExtractHtml(url, html)`
or `provided_cls(data=without_html)`. -/
inductive PageInput where
  | htmlInstance (url : JValue) (html : JValue)
  | dataInstance (cls : AEClass) (data : Payload)

/-- Model of `inc_stats`: increment `autoextract/total(suffix)` and, when `both`,
also `autoextract/(page_type)(suffix)`. -/
def incBoth (st : Stats) (page_type suffix : String) (value : Nat)
    (both : Bool) : Stats :=
  let st1 := incValue st ("autoextract/total" ++ suffix) value
  if both then incValue st1 ("autoextract/" ++ page_type ++ suffix) value else st1

/-- The `finally` block of `__call__`: page count plus the transport's
attempt/billable counters from `request_stats`. -/
def finallyStats (st : Stats) (page_type : String) (agg : AggStats) : Stats :=
  let st1 := incBoth st page_type "/pages/count" 1 true
  let st2 := incBoth st1 page_type "/attempts/count" agg.n_attempts false
  incBoth st2 page_type "/attempts/billable" agg.n_billable_query_responses false

/-- Model of `except CancelledError` dispatch (`isinstance` check). -/
def PyExc.isCancelled : PyExc → Bool
  | .cancelledError => true
  | _ => false

/-- Model of `_stop_if_account_disabled`: only an `autoextract` `RequestError`
whose error data has the account-disabled type closes the spider (the
literal models the external `ACCOUNT_DISABLED_ERROR_TYPE` constant). -/
def stop_if_account_disabled (exc : PyExc) (s : ProviderState) : ProviderState :=
  match exc with
  | .requestError t => if t == "account_disabled" then { s with crawlerStopped := true } else s
  | _ => s

/-- The `try` block of `__call__` for one spec, after
`await self.task_manager.run(self.per_domain_semaphore.run(awaitable,
slot))`: in the sequential single-task execution modelled here those two
wrappers pass the awaitable's result through unchanged (their concurrent
behaviour is the `SemStep`/`taskManagerRunStart` models above), so the
awaited value is `do_request_cached`'s.  Then `data = response[0]`, the
identity hook `pre_process_item_data`, and the query-error check
`raise QueryError(data["query"], data["error"])`. -/
def callTryBlock (fpFun : AERequest → String) (transport : Transport)
    (s : ProviderState) (spec : AERequestSpec) :
    ProviderState × AggStats × Except PyExc Payload :=
  let drc := do_request_cached fpFun transport s spec.query
  match drc.response with
  | .error e => (drc.state, drc.aggStats, .error e)
  | .ok response =>
    match response with
    | [] => (drc.state, drc.aggStats, .error .indexError)
    | data :: _ =>
      if hasKey data "error" then
        match pyGet data "query" with
        | .error e => (drc.state, drc.aggStats, .error e)
        | .ok q =>
          match pyGet data "error" with
          | .error e => (drc.state, drc.aggStats, .error e)
          | .ok msg => (drc.state, drc.aggStats, .error (.queryError q msg))
      else
        (drc.state, drc.aggStats, .ok data)

/-- Model of `AutoExtractHtml(url=data[page_type]['url'], html=data['html'])`. -/
def htmlInstanceOf (page_type : String) (data : Payload) :
    Except PyExc PageInput :=
  match pyGet data page_type with
  | .error e => .error e
  | .ok (JValue.obj fields) =>
    match pyGet fields "url" with
    | .error e => .error e
    | .ok u =>
      match pyGet data "html" with
      | .error e => .error e
      | .ok h => .ok (.htmlInstance u h)
  | .ok _ => .error .typeError

/-- One iteration of the `for spec in self.list_required_requests(...)`
loop of `__call__`: the `try` block, the `except`/`finally` counter
updates, and on success the construction of the html and structured page
inputs this spec contributes. -/
def processSpec (fpFun : AERequest → String) (transport : Transport)
    (domainOccupied : String → Bool) (s : ProviderState)
    (spec : AERequestSpec) : ProviderState × Except PyExc (List PageInput) :=
  let page_type := pageTypeOf spec.provided_cls
  let (s1, request_stats, tryRes) := callTryBlock fpFun transport s spec
  match tryRes with
  | .error e =>
    let s2 :=
      if e.isCancelled then
        { s1 with stats := incBoth s1.stats page_type "/pages/cancelled" 1 true }
      else
        let sa := { s1 with stats := incBoth s1.stats page_type "/pages/errors" 1 true }
        let classifiedKey := "/pages/errors" ++ summarize_exception domainOccupied e
        let sb := { sa with stats := incBoth sa.stats page_type classifiedKey 1 false }
        stop_if_account_disabled e sb
    ({ s2 with stats := finallyStats s2.stats page_type request_stats }, .error e)
  | .ok data =>
    let s3 := { s1 with stats := finallyStats s1.stats page_type request_stats }
    let htmlStep : ProviderState × Except PyExc (List PageInput) :=
      if spec.should_request_html then
        match htmlInstanceOf page_type data with
        | .error e => (s3, .error e)
        | .ok inst =>
          ({ s3 with stats := incBoth s3.stats page_type "/pages/html" 1 true },
            .ok [inst])
      else
        (s3, .ok [])
    match htmlStep with
    | (s4, .error e) => (s4, .error e)
    | (s4, .ok insts1) =>
      let insts2 :=
        if spec.is_extraction_required then
          insts1 ++ [PageInput.dataInstance spec.provided_cls
            (data.filter (fun kv => !(kv.1 == "html")))]
        else insts1
      ({ s4 with stats := incBoth s4.stats page_type "/pages/success" 1 true },
        .ok insts2)

/-- The spec loop of `__call__`, accumulating `instances`. -/
def runSpecs (fpFun : AERequest → String) (transport : Transport)
    (domainOccupied : String → Bool) :
    ProviderState → List PageInput → List AERequestSpec →
      ProviderState × Except PyExc (List PageInput)
  | s, acc, [] => (s, .ok acc)
  | s, acc, spec :: rest =>
    match processSpec fpFun transport domainOccupied s spec with
    | (s1, .error e) => (s1, .error e)
    | (s1, .ok insts) => runSpecs fpFun transport domainOccupied s1 (acc ++ insts) rest

/-- Model of `AutoExtractProvider.__call__`: build the required specs (mutating
the caller's `to_provide` set — first component) and run them.  `fpFun`
is the cache fingerprint serialization and `domainOccupied` the external
`DomainOccupied.from_message` matcher. -/
def callOrchestrator (fpFun : AERequest → String) (transport : Transport)
    (domainOccupied : String → Bool) (s : ProviderState)
    (to_provide : List AEClass) (request_url : String) :
    List AEClass × ProviderState × Except PyExc (List PageInput) :=
  let lr := list_required_requests to_provide request_url
  match lr.2 with
  | .error e => (lr.1, s, .error e)
  | .ok specs => (lr.1, runSpecs fpFun transport domainOccupied s [] specs)

theorem list_required_requests_fst (to_provide : List AEClass) (u : String) :
    (list_required_requests to_provide u).1
      = to_provide.filter (fun c => !(c == AEClass.html)) := rfl

/-- Claim C10: `to_provide -= (AutoExtractHtml)` mutates the caller's set
in place, so after `list_required_requests` returns, the caller's set no
longer contains the full-content class (and is otherwise unchanged). -/
theorem list_required_requests_mutates_callers_set
    (to_provide : List AEClass) (request_url : String)
    (hmem : AEClass.html ∈ to_provide) :
    AEClass.html ∉ (list_required_requests to_provide request_url).1 ∧
    ∀ c : AEClass, c ≠ AEClass.html →
      (c ∈ (list_required_requests to_provide request_url).1 ↔ c ∈ to_provide) := by
  rw [list_required_requests_fst]
  constructor
  · intro hc
    simp [List.mem_filter] at hc
  · intro c hc
    simp [List.mem_filter, hc]

/-- Witness for claim C10 at a concrete two-element set. -/
theorem list_required_requests_mutates_callers_set_witness :
    AEClass.html ∈ [AEClass.html, AEClass.data "article"] ∧
    (AEClass.html ∉
        (list_required_requests [AEClass.html, AEClass.data "article"]
          "http://example.com").1 ∧
      ∀ c : AEClass, c ≠ AEClass.html →
        (c ∈ (list_required_requests [AEClass.html, AEClass.data "article"]
            "http://example.com").1 ↔
          c ∈ [AEClass.html, AEClass.data "article"])) :=
  ⟨by decide,
    list_required_requests_mutates_callers_set
      [AEClass.html, AEClass.data "article"] "http://example.com" (by decide)⟩

theorem mapM_buildSpec_count (u : String) (ihr ier : Bool) (cfh : AEClass)
    (l : List AEClass) (hno : ∀ c ∈ l, c ≠ AEClass.html) :
    ∃ specs, l.mapM (buildSpec u ihr ier cfh) = .ok specs ∧
      specs.countP (fun sp => sp.should_request_html)
        = l.countP (fun c => ihr && (c == cfh)) := by
  induction l with
  | nil => exact ⟨[], rfl, rfl⟩
  | cons c cs ih =>
    obtain ⟨specs, hok, hcount⟩ := ih (fun x hx => hno x (List.mem_cons_of_mem c hx))
    have hc := hno c (List.mem_cons_self c cs)
    cases c with
    | html => exact absurd rfl hc
    | data pt =>
      refine ⟨{ query := [get_filled_request u (AEClass.data pt)
                  (ihr && (AEClass.data pt == cfh))],
                should_request_html := ihr && (AEClass.data pt == cfh),
                is_extraction_required := ier,
                provided_cls := AEClass.data pt } :: specs, ?_, ?_⟩
      · rw [List.mapM_cons]
        simp only [buildSpec, hok]
        rfl
      · simp [List.countP_cons, hcount]

theorem countP_beq_le_one (cfh : AEClass) (l : List AEClass) (hnd : l.Nodup) :
    l.countP (fun c => c == cfh) ≤ 1 := by
  induction l with
  | nil => simp
  | cons a as ih =>
    rw [List.countP_cons]
    rcases List.nodup_cons.mp hnd with ⟨hna, hnd2⟩
    by_cases ha : a = cfh
    · subst ha
      have hz : as.countP (fun c => c == a) = 0 := by
        rw [List.countP_eq_zero]
        intro b hb
        simp only [beq_iff_eq]
        intro hbe
        exact hna (hbe ▸ hb)
      simp [hz]
    · have hb : (a == cfh) = false := by simp [ha]
      have := ih hnd2
      simp [hb]
      omega

theorem countP_mark_le_one (ihr : Bool) (cfh : AEClass) (l : List AEClass)
    (hnd : l.Nodup) : l.countP (fun c => ihr && (c == cfh)) ≤ 1 := by
  have hle : l.countP (fun c => ihr && (c == cfh))
      ≤ l.countP (fun c => c == cfh) := by
    apply List.countP_mono_left
    intro a _ hpa
    cases ihr with
    | false => simp at hpa
    | true => simpa using hpa
  exact le_trans hle (countP_beq_le_one cfh l hnd)

theorem specs_count_le_one_of (u : String) (ihr ier : Bool) (cfh : AEClass)
    (l : List AEClass) (hno : ∀ c ∈ l, c ≠ AEClass.html) (hnd : l.Nodup)
    (specs : List AERequestSpec)
    (hok : l.mapM (buildSpec u ihr ier cfh) = .ok specs) :
    specs.countP (fun sp => sp.should_request_html) ≤ 1 := by
  obtain ⟨specs2, hok2, hcnt⟩ := mapM_buildSpec_count u ihr ier cfh l hno
  rw [hok2] at hok
  have hs : specs2 = specs := by
    injection hok
  subst hs
  rw [hcnt]
  exact countP_mark_le_one ihr cfh l hnd

theorem incValue_same (st : Stats) (key : String) (c : Nat) :
    incValue st key c key = st key + c := by
  simp [incValue]

theorem incValue_ne (st : Stats) (key : String) (c : Nat) (k : String)
    (h : k ≠ key) : incValue st key c k = st k := by
  simp [incValue, h]

theorem summarize_queryError_length (dom : String → Bool) (q m : JValue) :
    7 ≤ (summarize_exception dom (.queryError q m)).length := by
  unfold summarize_exception
  rw [String.length_append]
  have h7 : ("/query/" : String).length = 7 := rfl
  omega

/-- Stat keys shorter than 37 characters differ from the classified
query-error key, whose prefix alone is 37 characters long. -/
theorem key_ne_classified (a : String) (dom : String → Bool) (q m : JValue)
    (ha : a.length < 37) :
    a ≠ "autoextract/total" ++ ("/pages/errors" ++ summarize_exception dom (.queryError q m)) := by
  intro he
  have hl := congrArg String.length he
  rw [String.length_append, String.length_append] at hl
  have h17 : ("autoextract/total" : String).length = 17 := rfl
  have h13 : ("/pages/errors" : String).length = 13 := rfl
  have h7 := summarize_queryError_length dom q m
  omega

/-- The mock transport of spec scenario B: one payload carrying a
`query` and an `error` field. -/
def singleErrorTransport (Q E : JValue) (agg : AggStats) : Transport :=
  fun _ => ([[("query", Q), ("error", E)]], agg)

/-- Claim C6: when the transport returns a single payload carrying both a
`query` field `Q` and an `error` field `E`, `__call__` raises a
`QueryError` carrying exactly `Q` and `E`, increments the error counters
(global and per page type) and leaves the success counters untouched. -/
theorem call_query_error_raises_and_counts (fpFun : AERequest → String)
    (dom : String → Bool) (s : ProviderState) (hc : s.cache = .dummy)
    (Q E : JValue) (agg : AggStats) (u : String) :
    (callOrchestrator fpFun (singleErrorTransport Q E agg) dom s
        [AEClass.data "article"] u).2.2 = .error (.queryError Q E) ∧
    (callOrchestrator fpFun (singleErrorTransport Q E agg) dom s
        [AEClass.data "article"] u).2.1.stats "autoextract/total/pages/errors"
      = s.stats "autoextract/total/pages/errors" + 1 ∧
    (callOrchestrator fpFun (singleErrorTransport Q E agg) dom s
        [AEClass.data "article"] u).2.1.stats "autoextract/article/pages/errors"
      = s.stats "autoextract/article/pages/errors" + 1 ∧
    (callOrchestrator fpFun (singleErrorTransport Q E agg) dom s
        [AEClass.data "article"] u).2.1.stats "autoextract/total/pages/success"
      = s.stats "autoextract/total/pages/success" ∧
    (callOrchestrator fpFun (singleErrorTransport Q E agg) dom s
        [AEClass.data "article"] u).2.1.stats "autoextract/article/pages/success"
      = s.stats "autoextract/article/pages/success" := by
  obtain ⟨st, cache, stopped, tc⟩ := s
  have hcache : cache = CacheState.dummy := hc
  subst hcache
  have hstats : (callOrchestrator fpFun (singleErrorTransport Q E agg) dom
      ⟨st, .dummy, stopped, tc⟩ [AEClass.data "article"] u).2.1.stats
    = incValue (incValue (incValue (incValue (incValue (incValue (incValue
        (incValue (incValue st
        "autoextract/cache/miss" 1)
        "autoextract/cache/uncacheable" 1)
        "autoextract/total/pages/errors" 1)
        "autoextract/article/pages/errors" 1)
        ("autoextract/total" ++ ("/pages/errors"
          ++ summarize_exception dom (.queryError Q E))) 1)
        "autoextract/total/pages/count" 1)
        "autoextract/article/pages/count" 1)
        "autoextract/total/attempts/count" agg.n_attempts)
        "autoextract/total/attempts/billable" agg.n_billable_query_responses := rfl
  refine ⟨rfl, ?_, ?_, ?_, ?_⟩
  · rw [hstats]
    rw [incValue_ne _ _ _ _ (by decide)]
    rw [incValue_ne _ _ _ _ (by decide)]
    rw [incValue_ne _ _ _ _ (by decide)]
    rw [incValue_ne _ _ _ _ (by decide)]
    rw [incValue_ne _ _ _ _ (key_ne_classified _ dom Q E (by decide))]
    rw [incValue_ne _ _ _ _ (by decide)]
    rw [incValue_same]
    rw [incValue_ne _ _ _ _ (by decide)]
    rw [incValue_ne _ _ _ _ (by decide)]
  · rw [hstats]
    rw [incValue_ne _ _ _ _ (by decide)]
    rw [incValue_ne _ _ _ _ (by decide)]
    rw [incValue_ne _ _ _ _ (by decide)]
    rw [incValue_ne _ _ _ _ (by decide)]
    rw [incValue_ne _ _ _ _ (key_ne_classified _ dom Q E (by decide))]
    rw [incValue_same]
    rw [incValue_ne _ _ _ _ (by decide)]
    rw [incValue_ne _ _ _ _ (by decide)]
    rw [incValue_ne _ _ _ _ (by decide)]
  · rw [hstats]
    rw [incValue_ne _ _ _ _ (by decide)]
    rw [incValue_ne _ _ _ _ (by decide)]
    rw [incValue_ne _ _ _ _ (by decide)]
    rw [incValue_ne _ _ _ _ (by decide)]
    rw [incValue_ne _ _ _ _ (key_ne_classified _ dom Q E (by decide))]
    rw [incValue_ne _ _ _ _ (by decide)]
    rw [incValue_ne _ _ _ _ (by decide)]
    rw [incValue_ne _ _ _ _ (by decide)]
    rw [incValue_ne _ _ _ _ (by decide)]
  · rw [hstats]
    rw [incValue_ne _ _ _ _ (by decide)]
    rw [incValue_ne _ _ _ _ (by decide)]
    rw [incValue_ne _ _ _ _ (by decide)]
    rw [incValue_ne _ _ _ _ (by decide)]
    rw [incValue_ne _ _ _ _ (key_ne_classified _ dom Q E (by decide))]
    rw [incValue_ne _ _ _ _ (by decide)]
    rw [incValue_ne _ _ _ _ (by decide)]
    rw [incValue_ne _ _ _ _ (by decide)]
    rw [incValue_ne _ _ _ _ (by decide)]

/-- Witness for claim C6 at spec scenario B: payload
`(query Q, error E)` against a fresh provider with caching disabled. -/
theorem call_query_error_raises_and_counts_witness :
    (callOrchestrator wFp (singleErrorTransport (.str "Q") (.str "E") AggStats.zero)
        (fun _ => false) (initialProviderState .dummy)
        [AEClass.data "article"] "http://example.com").2.2
      = .error (.queryError (.str "Q") (.str "E")) ∧
    (callOrchestrator wFp (singleErrorTransport (.str "Q") (.str "E") AggStats.zero)
        (fun _ => false) (initialProviderState .dummy)
        [AEClass.data "article"] "http://example.com").2.1.stats
        "autoextract/total/pages/errors"
      = (initialProviderState .dummy).stats "autoextract/total/pages/errors" + 1 ∧
    (callOrchestrator wFp (singleErrorTransport (.str "Q") (.str "E") AggStats.zero)
        (fun _ => false) (initialProviderState .dummy)
        [AEClass.data "article"] "http://example.com").2.1.stats
        "autoextract/article/pages/errors"
      = (initialProviderState .dummy).stats "autoextract/article/pages/errors" + 1 ∧
    (callOrchestrator wFp (singleErrorTransport (.str "Q") (.str "E") AggStats.zero)
        (fun _ => false) (initialProviderState .dummy)
        [AEClass.data "article"] "http://example.com").2.1.stats
        "autoextract/total/pages/success"
      = (initialProviderState .dummy).stats "autoextract/total/pages/success" ∧
    (callOrchestrator wFp (singleErrorTransport (.str "Q") (.str "E") AggStats.zero)
        (fun _ => false) (initialProviderState .dummy)
        [AEClass.data "article"] "http://example.com").2.1.stats
        "autoextract/article/pages/success"
      = (initialProviderState .dummy).stats "autoextract/article/pages/success" :=
  call_query_error_raises_and_counts wFp (fun _ => false)
    (initialProviderState .dummy) rfl (.str "Q") (.str "E") AggStats.zero
    "http://example.com"

/-- The mock transport of spec scenario C: one payload with the
structured `article` object and the raw markup. -/
def scenarioCPayload : Payload :=
  [("article", .obj [("url", .str "X")]), ("html", .str "<html>")]

def scenarioCTransport : Transport :=
  fun _ => ([scenarioCPayload], AggStats.zero)

/-- Claim C7: for every duplicate-free requested set of output types, at
most one of the built outbound queries is marked to additionally request
full content; and in spec scenario C (structured type `article` plus the
full-content type) exactly one outbound query reaches the transport and
the results are the full-content object built from the payload's
canonical URL and markup together with the structured object whose data
has the `html` field stripped. -/
theorem at_most_one_query_requests_full_content :
    (∀ (to_provide : List AEClass) (u : String), to_provide.Nodup →
      ∀ specs : List AERequestSpec,
        (list_required_requests to_provide u).2 = .ok specs →
        specs.countP (fun sp => sp.should_request_html) ≤ 1) ∧
    ((callOrchestrator wFp scenarioCTransport (fun _ => false)
        (initialProviderState .dummy) [AEClass.data "article", AEClass.html]
        "http://example.com").2.2
      = .ok [PageInput.htmlInstance (.str "X") (.str "<html>"),
             PageInput.dataInstance (AEClass.data "article")
               [("article", .obj [("url", .str "X")])]] ∧
      (callOrchestrator wFp scenarioCTransport (fun _ => false)
        (initialProviderState .dummy) [AEClass.data "article", AEClass.html]
        "http://example.com").2.1.transportCalls = 1) := by
  constructor
  · intro to_provide u hnd specs hok
    simp only [list_required_requests] at hok
    by_cases hcond : (to_provide.contains AEClass.html &&
        (to_provide.filter (fun c => !(c == AEClass.html))).isEmpty) = true
    · rw [if_pos hcond] at hok
      refine specs_count_le_one_of u _ _ _ [page_type_class_for_html] ?_ ?_ specs hok
      · intro c hcv
        rw [List.mem_singleton] at hcv
        subst hcv
        decide
      · simp
    · rw [if_neg hcond] at hok
      rcases hfl : to_provide.filter (fun c => !(c == AEClass.html)) with _ | ⟨c0, rest⟩
      · rw [hfl] at hok
        have h0 : ([] : List AERequestSpec) = specs := by
          injection hok
        rw [← h0]
        simp
      · rw [hfl] at hok
        refine specs_count_le_one_of u _ _ _ (c0 :: rest) ?_ ?_ specs hok
        · intro c hcv
          have hmemf : c ∈ to_provide.filter (fun x => !(x == AEClass.html)) := by
            rw [hfl]
            exact hcv
          have hpf := (List.mem_filter.mp hmemf).2
          simpa using hpf
        · rw [← hfl]
          exact hnd.filter _
  · exact ⟨rfl, rfl⟩

/-- Witness for claim C7 at the concrete scenario C request set
`(article, full-content)`. -/
theorem at_most_one_query_requests_full_content_witness :
    ([AEClass.data "article", AEClass.html] : List AEClass).Nodup ∧
    (list_required_requests [AEClass.data "article", AEClass.html]
        "http://example.com").2
      = .ok [{ query := [{ url := "http://example.com", pageType := "article",
                           extra := some [("fullHtml", JValue.bool true)] }],
               should_request_html := true,
               is_extraction_required := true,
               provided_cls := AEClass.data "article" }] ∧
    List.countP (fun sp => sp.should_request_html)
      [({ query := [{ url := "http://example.com", pageType := "article",
                      extra := some [("fullHtml", JValue.bool true)] }],
          should_request_html := true,
          is_extraction_required := true,
          provided_cls := AEClass.data "article" } : AERequestSpec)] ≤ 1 :=
  ⟨by decide, rfl,
    at_most_one_query_requests_full_content.1
      [AEClass.data "article", AEClass.html] "http://example.com" (by decide) _ rfl⟩

/-! ## Model of the settings surface used by claim C8 -/

/-- Scrapy settings as the provider reads them: a partial map from
setting names to integers (`getint` semantics). -/
structure PySettings where
  getRaw : String → Option Int

/-- Model of `Settings.getint(name, default)`. -/
def getint (s : PySettings) (name : String) (default : Int) : Int :=
  (s.getRaw name).getD default

/-- The concurrency value `get_concurrent_requests_per_domain` resolves
before validating: the AutoExtract-specific setting, falling back to
`CONCURRENT_REQUESTS_PER_DOMAIN` when it reads -1. -/
def resolvedConcurrencyPerDomain (settings : PySettings) : Int :=
  let c1 := getint settings "AUTOEXTRACT_CONCURRENT_REQUESTS_PER_DOMAIN" (-1)
  if c1 = -1 then getint settings "CONCURRENT_REQUESTS_PER_DOMAIN" 0 else c1

/-- Model of `get_concurrent_requests_per_domain` from `providers.py`: resolve the
setting and raise `ValueError` when it is below 1. -/
def get_concurrent_requests_per_domain (settings : PySettings) :
    Except PyExc Int :=
  let concurrency := resolvedConcurrencyPerDomain settings
  if concurrency < 1 then
    .error (.valueError "Invalid concurrent requests per domain value")
  else
    .ok concurrency

/-- A `SlotsSemaphore` object as `__init__` leaves it. -/
structure SlotsSemaphoreObj (K : Type) where
  concurrency_per_slot : Int
  slots : K → Option SlotMeta

/-- Model of `SlotsSemaphore.__init__`: stores the capacity and the empty slot
dictionary; it performs no validation, so it never raises. -/
def slotsSemaphoreInit (K : Type) (concurrency_per_slot : Int) :
    Except PyExc (SlotsSemaphoreObj K) :=
  .ok { concurrency_per_slot := concurrency_per_slot, slots := fun _ => none }

/-- Counterexample for claim C8: constructing `SlotsSemaphore` with a
non-positive capacity succeeds with no error — the constructor performs
no validation. -/
theorem slots_semaphore_init_accepts_nonpositive_counterexample :
    (∃ obj, slotsSemaphoreInit Nat 0 = Except.ok obj) ∧
    (∃ obj, slotsSemaphoreInit Nat (-5) = Except.ok obj) :=
  ⟨⟨_, rfl⟩, ⟨_, rfl⟩⟩

/-- Claim C8 (amended): `SlotsSemaphore.__init__` accepts any capacity
without error; non-positive capacities are instead rejected with a
`ValueError` by `get_concurrent_requests_per_domain`, the settings reader
the provider calls to obtain the capacity before constructing the
semaphore — it returns a value at least 1 or raises, for every resolved
value below 1. -/
theorem concurrency_validated_in_settings_not_constructor :
    (∀ c : Int, ∃ obj, slotsSemaphoreInit Nat c = Except.ok obj) ∧
    (∀ settings : PySettings, ∀ c : Int,
      get_concurrent_requests_per_domain settings = .ok c → 1 ≤ c) ∧
    (∀ settings : PySettings, resolvedConcurrencyPerDomain settings < 1 →
      ∃ msg, get_concurrent_requests_per_domain settings
        = .error (.valueError msg)) := by
  refine ⟨fun c => ⟨_, rfl⟩, ?_, ?_⟩
  · intro settings c hok
    unfold get_concurrent_requests_per_domain at hok
    by_cases h : resolvedConcurrencyPerDomain settings < 1
    · simp [h] at hok
    · simp [h] at hok
      omega
  · intro settings h
    unfold get_concurrent_requests_per_domain
    simp [h]

/-- Settings resolving the per-domain concurrency to 0. -/
def zeroConcurrencySettings : PySettings :=
  { getRaw := fun name =>
      if name = "AUTOEXTRACT_CONCURRENT_REQUESTS_PER_DOMAIN" then some 0 else none }

/-- Witness for the amended claim C8 at a non-positive capacity and a
settings object resolving to 0. -/
theorem concurrency_validated_in_settings_not_constructor_witness :
    (∃ obj, slotsSemaphoreInit Nat (-3) = Except.ok obj) ∧
    resolvedConcurrencyPerDomain zeroConcurrencySettings < 1 ∧
    (∃ msg, get_concurrent_requests_per_domain zeroConcurrencySettings
      = .error (.valueError msg)) :=
  ⟨concurrency_validated_in_settings_not_constructor.1 (-3),
    by decide,
    concurrency_validated_in_settings_not_constructor.2.2
      zeroConcurrencySettings (by decide)⟩

end ScrapyAutoextract
